import Mathlib

/-!
Verification of the launcher synchronization engine (app.go).

Strings of the Go source are modelled as lists of characters (`Str`), so
that every operation used by the program (splitting on a separator,
trimming, joining paths) is a structurally recursive, kernel-computable
Lean function.  Machine integers (`int64`, `int`) are modelled as `Int`;
`float64` arithmetic in `DownloadPercent` is modelled exactly, over `ℚ`.
Effectful operations (HTTP requests, file reads, hashing) are modelled by
explicit environment values recording the outcome of each step.
-/

namespace LauncherConfig

abbrev Str := List Char

/-- Go `strings.Split s sep` for a one-character separator: the list of
substrings between occurrences of `c`; never empty, and `[""]` on the
empty string, as in Go. -/
def splitOnChar (c : Char) : Str → List Str
  | [] => [[]]
  | x :: xs =>
    let rest := splitOnChar c xs
    if x = c then [] :: rest
    else
      match rest with
      | [] => [[x]]
      | r :: rs => (x :: r) :: rs

/-- `parts[0]` of Go `strings.Split(name, "/")` (the split is never empty). -/
def firstSeg (s : Str) : Str := (splitOnChar '/' s).headD []

/-- Boolean prefix test, as Go `strings.HasPrefix(s, p)` (`p` first here). -/
def hasLead : Str → Str → Bool
  | [], _ => true
  | _ :: _, [] => false
  | c :: p, d :: s => c == d && hasLead p s

/-- Go `strings.TrimPrefix(s, p)`: drop `p` from the front of `s` when it
is a prefix, otherwise return `s` unchanged. -/
def trimPrefixStr (s p : Str) : Str :=
  if hasLead p s then s.drop p.length else s

/-- `String.intercalate "/"` on the element list, used to rebuild a path. -/
def joinSegs : List Str → Str
  | [] => []
  | [s] => s
  | s :: rest => s ++ '/' :: joinSegs rest

/-- One element step of Go `path/filepath.Clean` (Unix separators):
empty and `.` elements are dropped; `..` pops the latest real element,
is dropped at the root of a rooted path, and is kept otherwise.  `acc`
holds the output elements in reverse order. -/
def cleanPush (rooted : Bool) (acc : List Str) (seg : Str) : List Str :=
  if seg = [] ∨ seg = ['.'] then acc
  else if seg = ['.', '.'] then
    match acc with
    | [] => if rooted then [] else [['.', '.']]
    | a :: rest => if a = ['.', '.'] then seg :: a :: rest else rest
  else seg :: acc

/-- Go `path/filepath.Clean` on Unix-style paths (the lexical shortest
equivalent path: no empty or `.` elements, `..` resolved against the
elements before it). -/
def cleanPath (p : Str) : Str :=
  if p = [] then ['.']
  else
    let rooted := p.headD ' ' = '/'
    let out := ((splitOnChar '/' p).foldl (cleanPush rooted) []).reverse
    if rooted then '/' :: joinSegs out
    else if out = [] then ['.']
    else joinSegs out

/-- Go `path/filepath.Join(a, b)`: empty elements are dropped, the rest
joined with the separator, and the result cleaned (`""` when both are
empty, as in Go). -/
def joinPath (a b : Str) : Str :=
  if a = [] then (if b = [] then [] else cleanPath b)
  else if b = [] then cleanPath a
  else cleanPath (a ++ '/' :: b)

/-- `p` is lexically inside the destination `dst`: it is `dst` itself or
sits strictly below it. -/
def isWithin (dst p : Str) : Bool :=
  p == dst || hasLead (dst ++ ['/']) p

/-- One archive entry as `unzipToFolder` sees it: `f.Name` and whether
`f.FileInfo().IsDir()` holds. -/
structure ZipEntry where
  name : Str
  isDir : Bool
deriving DecidableEq

/-- The root-folder scan of `unzipToFolder` (app.go lines 521-533):
while `rootFolder` is empty it takes the entry's first path segment;
afterwards, an entry whose first segment differs clears the root and
breaks out of the loop. -/
def detectRootLoop (rootFolder : Str) : List ZipEntry → Str
  | [] => rootFolder
  | e :: rest =>
    let p0 := firstSeg e.name
    if rootFolder = [] then detectRootLoop p0 rest
    else if rootFolder ≠ p0 then []
    else detectRootLoop rootFolder rest

/-- `rootFolder` after the scan over all entries, starting empty. -/
def detectRoot (entries : List ZipEntry) : Str := detectRootLoop [] entries

/-- The target path `unzipToFolder` computes for one entry (app.go lines
537-549): with a detected root the leading `rootFolder ++ "/"` is trimmed
and an entry reduced to the empty relative path is skipped (`none`);
without a root the entry name is joined under `dst` as-is. -/
def entryTarget (rootFolder dst : Str) (e : ZipEntry) : Option Str :=
  if rootFolder ≠ [] then
    let relPath := trimPrefixStr e.name (rootFolder ++ ['/'])
    if relPath = [] then none
    else some (joinPath dst relPath)
  else some (joinPath dst e.name)

/-- Paths of the regular files `unzipToFolder` creates from the archive
(app.go lines 513-584); directory entries only create directories and are
not listed. -/
def unzipToFolderFiles (entries : List ZipEntry) (dst : Str) : List Str :=
  let rootFolder := detectRoot entries
  entries.filterMap fun e =>
    if e.isDir then none else entryTarget rootFolder dst e

/-- One manifest entry (the `File` struct, app.go lines 25-32). -/
structure File where
  localFile : Str
  packedHash : Str
  packedSize : Int
  url : Str
  unpackedHash : Str
  unpackedSize : Int
deriving DecidableEq

/-- The assets manifest (`AssetsInfo`, app.go lines 34-37). -/
structure AssetsInfo where
  files : List File
  version : Int
deriving DecidableEq

/-- The client manifest (`ClientInfo`, app.go lines 39-46). -/
structure ClientInfo where
  revision : Int
  version : Str
  files : List File
  executable : Str
  generation : Str
  variant : Str
deriving DecidableEq

/-- What one diff worker observes about a local path: `os.Stat` says the
file does not exist, or `sha256Sum` fails, or it returns a digest. -/
inductive LocalView
  | absent
  | hashErr
  | digest (hash : Str)
deriving DecidableEq

/-- The decision one goroutine of `filesToUpdate` makes for its entry
(app.go lines 370-393): append it to the plan, leave it out because the
local digest matches, or return early on a hash error. -/
inductive CheckOutcome
  | include
  | exclude
  | errSkip
deriving DecidableEq

/-- The body of one `filesToUpdate` worker (app.go lines 370-393). -/
def checkFile (fs : Str → LocalView) (appDir : Str) (f : File) : CheckOutcome :=
  match fs (joinPath appDir f.localFile) with
  | .absent => .include
  | .hashErr => .errSkip
  | .digest h => if h ≠ f.unpackedHash then .include else .exclude

/-- `filesToUpdate` (app.go lines 361-399): assets entries followed by
client entries; the concurrent workers' mutex-guarded appends are
modelled in entry order (the resulting set is what the claims are about).
The Go function always returns a `nil` error, modelled as `none`. -/
def filesToUpdate (fs : Str → LocalView) (appDir : Str)
    (assetsFiles clientFiles : List File) : List File × Option Str :=
  ((assetsFiles ++ clientFiles).filter
      (fun f => checkFile fs appDir f == CheckOutcome.include),
    none)

/-- `DownloadPercent` (app.go lines 150-157), with the `float64`
arithmetic carried out exactly over the rationals. -/
def DownloadPercent (totalBytes downloadedBytes : Int) : ℚ :=
  if totalBytes = 0 then 0
  else (downloadedBytes : ℚ) / (totalBytes : ℚ) * 100

/-- Go `strings.TrimSpace` whitespace test (ASCII whitespace; the version
tokens the program compares are plain ASCII). -/
def isSpaceChar (c : Char) : Bool :=
  c == ' ' || c == '\t' || c == '\n' || c == '\r'

/-- Drop leading whitespace. -/
def trimLead : Str → Str
  | [] => []
  | c :: cs => if isSpaceChar c then trimLead cs else c :: cs

/-- Go `strings.TrimSpace`: drop leading and trailing whitespace. -/
def trimSpace (s : Str) : Str :=
  (trimLead (trimLead s).reverse).reverse

/-- Outcome of one HTTP body fetch: the GET itself failed, the body read
(`io.ReadAll`) failed, or the body bytes were obtained. -/
inductive FetchResult
  | getFail
  | readFail
  | ok (body : Str)
deriving DecidableEq

/-- Outcome of reading one local file: it does not exist, `os.ReadFile`
failed, or its bytes were read. -/
inductive LocalRead
  | notExists
  | readFail
  | content (bytes : Str)
deriving DecidableEq

/-- Environment of one `NeedsUpdate` call. -/
structure VersionEnv where
  remote : FetchResult
  initLuaExists : Bool
  localVersion : LocalRead
deriving DecidableEq

/-- `NeedsUpdate` (app.go lines 308-346): on a failed GET it falls back
to checking for `client/init.lua`; on a failed body read it returns
`false`; a missing or unreadable local version file means update; else
the two tokens are compared after trimming. -/
def NeedsUpdate (env : VersionEnv) : Bool :=
  match env.remote with
  | .getFail => !env.initLuaExists
  | .readFail => false
  | .ok remoteBytes =>
    match env.localVersion with
    | .notExists => true
    | .readFail => true
    | .content localBytes =>
      !(trimSpace localBytes == trimSpace remoteBytes)

/-- The version-save step at the end of `Update` (app.go lines 267-278):
when the version GET and body read both succeed, the raw remote bytes are
written to the local `client_version.txt`; otherwise the local file is
left as it was. -/
def updateSaveVersion (fetch : FetchResult) (prev : LocalRead) : LocalRead :=
  match fetch with
  | .ok body => .content body
  | _ => prev

/-- The two in-memory manifests of the `App` struct. -/
structure ManifestState where
  clientInfo : ClientInfo
  assetsInfo : AssetsInfo
deriving DecidableEq

/-- Environment of one `refreshManifests` call: whether each manifest
download succeeded, and what `readJSON` on the corresponding local file
yields (`none` = read or parse error). -/
structure RefreshEnv where
  clientDownloadOK : Bool
  clientRead : Option ClientInfo
  assetsDownloadOK : Bool
  assetsRead : Option AssetsInfo
deriving DecidableEq

/-- `refreshManifests` (app.go lines 110-138): a download error is only
logged; the local manifest file is then read unconditionally, and only a
successful read replaces the in-memory manifest.  The client and assets
halves run one after the other with no early return. -/
def refreshManifests (env : RefreshEnv) (st : ManifestState) : ManifestState where
  clientInfo :=
    match env.clientRead with
    | some v => v
    | none => st.clientInfo
  assetsInfo :=
    match env.assetsRead with
    | some v => v
    | none => st.assetsInfo

/-- The error values a transfer can return. -/
inductive TransferErr
  | mkdirErr
  | createErr
  | getErr
  | statusErr (code : Nat)
  | lzmaErr
  | copyErr
  | unzipErr
deriving DecidableEq

/-- `Write` (app.go lines 720-724): the progress tee reports
`n = len(p)` with a `nil` error and atomically adds `n` to the
`downloadedBytes` counter, here the threaded `Int` state. -/
def WriteProgress (st : Int) (n : Nat) : (Nat × Option TransferErr) × Int :=
  ((n, none), st + (n : Int))

/-- The `downloadedBytes` counter after the body chunks have streamed
through `io.TeeReader(resp.Body, a)`; without progress the tee is absent
and the counter is untouched. -/
def teeBytes (progress : Bool) (st : Int) (chunks : List Nat) : Int :=
  if progress then chunks.foldl (fun b n => (WriteProgress b n).2) st else st

/-- Go `path/filepath.Ext`: the suffix of the last path element starting
at its final dot, empty when the last element has no dot. -/
def extPath (p : Str) : Str :=
  match splitOnChar '.' ((splitOnChar '/' p).getLastD []) with
  | [] => []
  | [_] => []
  | ps => '.' :: ps.getLastD []

/-- Environment of one `downloadFile` call (app.go lines 586-631): the
request URL and the destination path (already joined under the app
directory), what fails at each step, and the sizes of the body chunks
that stream through the reader before the copy finishes or fails. -/
structure FileEnv where
  url : Str
  dstPath : Str
  mkdirFail : Bool
  createFail : Bool
  getFail : Bool
  status : Nat
  chunks : List Nat
  lzmaFail : Bool
  copyFail : Bool
deriving DecidableEq

/-- Result of one `downloadFile` call together with the progress counters
it leaves behind. -/
structure FileOutcome where
  err : Option TransferErr
  downloadedBytes : Int
  downloadedFiles : Int
deriving DecidableEq

/-- `downloadFile` (app.go lines 586-631): make the directory, create the
destination, GET, hard-fail on any status other than 200 OK, tee the body
through the progress writer when requested, wrap in an LZMA reader when
the URL has the `.lzma` extension and the destination does not, copy, and
only then increment `downloadedFiles`. -/
def downloadFile (env : FileEnv) (progress : Bool)
    (bytes0 files0 : Int) : FileOutcome :=
  if env.mkdirFail then ⟨some .mkdirErr, bytes0, files0⟩
  else if env.createFail then ⟨some .createErr, bytes0, files0⟩
  else if env.getFail then ⟨some .getErr, bytes0, files0⟩
  else if env.status ≠ 200 then ⟨some (.statusErr env.status), bytes0, files0⟩
  else
    let bytes1 := teeBytes progress bytes0 env.chunks
    if extPath env.dstPath ≠ ".lzma".data ∧ extPath env.url = ".lzma".data
        ∧ env.lzmaFail then
      ⟨some .lzmaErr, bytes1, files0⟩
    else if env.copyFail then ⟨some .copyErr, bytes1, files0⟩
    else ⟨none, bytes1, files0 + 1⟩

/-- Environment of one `downloadZip` call (app.go lines 420-467). -/
structure ZipEnv where
  mkdirFail : Bool
  createFail : Bool
  getFail : Bool
  status : Nat
  contentLength : Int
  chunks : List Nat
  copyFail : Bool
  unzipFail : Bool
deriving DecidableEq

/-- Result of one `downloadZip` call together with the progress counters
and the `totalBytes` counter it leaves behind. -/
structure ZipOutcome where
  err : Option TransferErr
  downloadedBytes : Int
  downloadedFiles : Int
  totalBytes : Int
deriving DecidableEq

/-- `downloadZip` (app.go lines 420-467): make the target directory,
create the temp file, GET, hard-fail on any status other than 200 OK,
assign `totalBytes` directly from `resp.ContentLength`, tee the body
through the progress writer when requested, copy, extract with
`unzipToFolder`, and only then increment `downloadedFiles`. -/
def downloadZip (env : ZipEnv) (progress : Bool)
    (bytes0 files0 total0 : Int) : ZipOutcome :=
  if env.mkdirFail then ⟨some .mkdirErr, bytes0, files0, total0⟩
  else if env.createFail then ⟨some .createErr, bytes0, files0, total0⟩
  else if env.getFail then ⟨some .getErr, bytes0, files0, total0⟩
  else if env.status ≠ 200 then
    ⟨some (.statusErr env.status), bytes0, files0, total0⟩
  else
    let total1 := env.contentLength
    let bytes1 := teeBytes progress bytes0 env.chunks
    if env.copyFail then ⟨some .copyErr, bytes1, files0, total1⟩
    else if env.unzipFail then ⟨some .unzipErr, bytes1, files0, total1⟩
    else ⟨none, bytes1, files0 + 1, total1⟩

/-- Whether a transfer got past its preamble (mkdir, create, GET, status
check) and so started streaming the body: used to state how many bytes
passed the progress writer before a failure. -/
def preambleOK (mkdirFail createFail getFail : Bool) (status : Nat) : Bool :=
  !mkdirFail && !createFail && !getFail && (status == 200)

/-- Total size of a chunk list, as an `Int`. -/
def sumChunks : List Nat → Int
  | [] => 0
  | n :: ns => (n : Int) + sumChunks ns

/-- The bytes a transfer adds to the `downloadedBytes` counter once its
preamble has passed: the chunk sizes that streamed through the tee, or
nothing when progress reporting is off. -/
def streamedBytes (progress : Bool) (chunks : List Nat) : Int :=
  if progress then sumChunks chunks else 0

theorem hasLead_append (p rest : Str) : hasLead p (p ++ rest) = true := by
  induction p with
  | nil => rfl
  | cons c p ih => simp [hasLead, ih]

theorem length_le_of_hasLead :
    ∀ p s : Str, hasLead p s = true → p.length ≤ s.length := by
  intro p
  induction p with
  | nil => intro s _; simp
  | cons c p ih =>
    intro s h
    cases s with
    | nil => simp [hasLead] at h
    | cons d s =>
      simp only [hasLead, Bool.and_eq_true] at h
      have := ih s h.2
      simp only [List.length_cons]
      omega

theorem trimPrefixStr_append (p rest : Str) :
    trimPrefixStr (p ++ rest) p = rest := by
  simp [trimPrefixStr, hasLead_append, List.drop_left]

theorem trimPrefixStr_self (p : Str) : trimPrefixStr p p = [] := by
  have h := trimPrefixStr_append p []
  rwa [List.append_nil] at h

theorem trimPrefixStr_short (s p : Str) (h : s.length < p.length) :
    trimPrefixStr s p = s := by
  unfold trimPrefixStr
  rw [if_neg]
  intro hc
  have := length_le_of_hasLead p s hc
  omega

theorem detectRootLoop_const (s : Str) (hs : s ≠ []) :
    ∀ l : List ZipEntry,
      (∀ e ∈ l, firstSeg e.name = s) → detectRootLoop s l = s := by
  intro l
  induction l with
  | nil => intro _; rfl
  | cons e rest ih =>
    intro h
    have he : firstSeg e.name = s := h e (by simp)
    simp only [detectRootLoop, he, if_neg hs, ne_eq, not_true_eq_false,
      if_false, ite_self]
    exact ih fun e' he' => h e' (by simp [he'])

theorem detectRootLoop_mismatch (s : Str) (hs : s ≠ []) :
    ∀ l : List ZipEntry,
      (∃ e ∈ l, firstSeg e.name ≠ s) → detectRootLoop s l = [] := by
  intro l
  induction l with
  | nil => rintro ⟨e, he, -⟩; cases he
  | cons e rest ih =>
    rintro ⟨e', he', hne⟩
    by_cases heq : firstSeg e.name = s
    · have hmem : e' ∈ rest := by
        rcases List.mem_cons.1 he' with h | h
        · exact absurd (h ▸ heq) hne
        · exact h
      simp only [detectRootLoop, heq, if_neg hs, ne_eq, not_true_eq_false,
        if_false, ite_self]
      exact ih ⟨e', hmem, hne⟩
    · have : s ≠ firstSeg e.name := fun h => heq h.symm
      simp only [detectRootLoop, if_neg hs, ne_eq]
      rw [if_pos this]

/-- C1: the spec requires extraction to reject or neutralize an archive
entry whose name climbs out of the destination (`../../escape.txt` must
not land outside the destination root), but `unzipToFolder` only
`filepath.Join`s the entry name under the destination: on the archive
containing the single file entry `../../escape.txt`, the root-folder scan
detects `..`, trims `../`, and the remaining `../escape.txt` joined under
destination `dest` cleans to `escape.txt` — a path outside `dest`. -/
theorem unzipToFolder_path_escape_bug :
    unzipToFolderFiles [⟨"../../escape.txt".data, false⟩] "dest".data
      = ["escape.txt".data] ∧
    isWithin "dest".data "escape.txt".data = false := by
  decide

/-- C2 counterexample: the archive with file entries `/x` and `a/y` has
two distinct first path segments (`""` and `a`), so the claim says no
flattening occurs and `a/y` is extracted at `dest/a/y`; but the
root-folder scan skips the empty first segment of `/x`, locks onto `a`,
and extracts `a/y` at `dest/y`. -/
theorem unzipToFolder_no_common_root_cex :
    firstSeg "/x".data ≠ firstSeg "a/y".data ∧
    unzipToFolderFiles [⟨"/x".data, false⟩, ⟨"a/y".data, false⟩] "dest".data
      = ["dest/x".data, "dest/y".data] ∧
    joinPath "dest".data "a/y".data = "dest/a/y".data ∧
    ("dest/y".data : Str) ≠ "dest/a/y".data := by
  decide

/-- C2 (amended): restricted to archives in which every entry's first
path segment is nonempty (no empty names, none beginning with `/`):
if every entry shares the same first segment `s`, the scan detects `s`,
the leading `s ++ "/"` is stripped from every entry extending it before
joining under the destination, and the bare root directory entry itself
is skipped; if at least two entries have distinct first segments, the
detected root is empty and every entry is extracted at its name joined
under the destination verbatim. -/
theorem unzipToFolder_flattening_amended (entries : List ZipEntry) (dst : Str)
    (hwf : ∀ e ∈ entries, firstSeg e.name ≠ []) :
    (∀ s : Str, s ≠ [] → entries ≠ [] →
      (∀ e ∈ entries, firstSeg e.name = s) →
      detectRoot entries = s ∧
      (∀ e ∈ entries, ∀ rest : Str, e.name = s ++ '/' :: rest → rest ≠ [] →
        entryTarget (detectRoot entries) dst e = some (joinPath dst rest)) ∧
      (∀ e ∈ entries, e.name = s ++ ['/'] →
        entryTarget (detectRoot entries) dst e = none)) ∧
    (∀ e1 ∈ entries, ∀ e2 ∈ entries,
      firstSeg e1.name ≠ firstSeg e2.name →
      detectRoot entries = [] ∧
      ∀ e ∈ entries,
        entryTarget (detectRoot entries) dst e = some (joinPath dst e.name)) := by
  constructor
  · intro s hs hne hshare
    have hroot : detectRoot entries = s := by
      cases entries with
      | nil => exact absurd rfl hne
      | cons e0 tl =>
        have h0 : firstSeg e0.name = s := hshare e0 (by simp)
        simp only [detectRoot, detectRootLoop, if_pos rfl, h0]
        exact detectRootLoop_const s hs tl
          fun e' he' => hshare e' (by simp [he'])
    refine ⟨hroot, ?_, ?_⟩
    · intro e _ rest hname hrest
      have hsplit : e.name = (s ++ ['/']) ++ rest := by
        rw [hname, List.append_assoc]; rfl
      rw [hroot]
      simp only [entryTarget, if_pos (show s ≠ [] from hs), hsplit, ne_eq,
        trimPrefixStr_append, if_neg hrest]
    · intro e _ hname
      rw [hroot]
      simp [entryTarget, hs, hname, trimPrefixStr_self]
  · intro e1 he1 e2 he2 hne
    have hroot : detectRoot entries = [] := by
      cases entries with
      | nil => cases he1
      | cons e0 tl =>
        have h0 : firstSeg e0.name ≠ [] := hwf e0 (by simp)
        simp only [detectRoot, detectRootLoop, if_pos rfl]
        apply detectRootLoop_mismatch _ h0
        by_cases hcase : firstSeg e1.name = firstSeg e0.name
        · have hmem : e2 ∈ tl := by
            rcases List.mem_cons.1 he2 with h | h
            · exact absurd (by rw [h]; exact hcase) hne
            · exact h
          exact ⟨e2, hmem, fun h => hne (by rw [hcase, h])⟩
        · have hmem : e1 ∈ tl := by
            rcases List.mem_cons.1 he1 with h | h
            · exact absurd (by rw [h]) hcase
            · exact h
          exact ⟨e1, hmem, hcase⟩
    refine ⟨hroot, ?_⟩
    intro e _
    rw [hroot]
    simp [entryTarget]

/-- Witness for the amended C2 theorem at two concrete archives: the
single-entry archive `r/a` is flattened (extracted at `d/a`), and the
two-root archive `p/x`, `q/y` detects no common root. -/
theorem unzipToFolder_flattening_amended_witness :
    entryTarget (detectRoot [⟨"r/a".data, false⟩]) "d".data ⟨"r/a".data, false⟩
      = some (joinPath "d".data "a".data) ∧
    detectRoot [⟨"p/x".data, false⟩, ⟨"q/y".data, false⟩] = [] := by
  constructor
  · exact ((unzipToFolder_flattening_amended [⟨"r/a".data, false⟩] "d".data
      (by decide)).1 "r".data (by decide) (by decide) (by decide)).2.1
      ⟨"r/a".data, false⟩ (by decide) "a".data (by decide) (by decide)
  · exact ((unzipToFolder_flattening_amended
      [⟨"p/x".data, false⟩, ⟨"q/y".data, false⟩] "d".data (by decide)).2
      ⟨"p/x".data, false⟩ (by decide) ⟨"q/y".data, false⟩ (by decide)
      (by decide)).1

/-- C3: when no local read or hash operation errs, `filesToUpdate`
returns, as an order-independent set, exactly the manifest entries whose
local file is absent or whose local digest differs from the entry's
`UnpackedHash`; entries with an existing file and matching digest are
never included. -/
theorem filesToUpdate_plan_exact (fs : Str → LocalView) (appDir : Str)
    (assetsFiles clientFiles : List File)
    (hok : ∀ f ∈ assetsFiles ++ clientFiles,
      fs (joinPath appDir f.localFile) ≠ LocalView.hashErr) :
    ∀ f : File,
      f ∈ (filesToUpdate fs appDir assetsFiles clientFiles).1 ↔
        f ∈ assetsFiles ++ clientFiles ∧
          (fs (joinPath appDir f.localFile) = LocalView.absent ∨
           ∃ h, fs (joinPath appDir f.localFile) = LocalView.digest h ∧
             h ≠ f.unpackedHash) := by
  intro f
  simp only [filesToUpdate, List.mem_filter, beq_iff_eq]
  constructor
  · rintro ⟨hmem, hinc⟩
    refine ⟨hmem, ?_⟩
    rcases hv : fs (joinPath appDir f.localFile) with _ | _ | h
    · exact Or.inl rfl
    · exact absurd hv (hok f hmem)
    · right
      refine ⟨h, rfl, ?_⟩
      by_cases hne : h = f.unpackedHash
      · simp [checkFile, hv, hne] at hinc
      · exact hne
  · rintro ⟨hmem, hcond⟩
    refine ⟨hmem, ?_⟩
    rcases hcond with habs | ⟨h, hdig, hne⟩
    · simp [checkFile, habs]
    · simp [checkFile, hdig, hne]

/-- Witness for C3: a single entry whose local file is absent is exactly
the returned plan. -/
theorem filesToUpdate_plan_exact_witness :
    (⟨"f".data, [], 0, [], "h0".data, 0⟩ : File) ∈
      (filesToUpdate (fun _ => LocalView.absent) "ad".data
        [⟨"f".data, [], 0, [], "h0".data, 0⟩] []).1 :=
  (filesToUpdate_plan_exact (fun _ => LocalView.absent) "ad".data
      [⟨"f".data, [], 0, [], "h0".data, 0⟩] [] (by decide)
      ⟨"f".data, [], 0, [], "h0".data, 0⟩).mpr
    ⟨by decide, Or.inl rfl⟩

/-- C7: a read or hash error on one entry only excludes that entry from
the plan: `filesToUpdate` still returns with a `nil` error, and every
error-free entry whose file is absent or whose digest differs is still in
the plan. -/
theorem filesToUpdate_error_skips (fs : Str → LocalView) (appDir : Str)
    (assetsFiles clientFiles : List File) :
    (filesToUpdate fs appDir assetsFiles clientFiles).2 = none ∧
    (∀ f ∈ assetsFiles ++ clientFiles,
      fs (joinPath appDir f.localFile) = LocalView.hashErr →
      f ∉ (filesToUpdate fs appDir assetsFiles clientFiles).1) ∧
    (∀ g ∈ assetsFiles ++ clientFiles,
      (fs (joinPath appDir g.localFile) = LocalView.absent ∨
        ∃ h, fs (joinPath appDir g.localFile) = LocalView.digest h ∧
          h ≠ g.unpackedHash) →
      g ∈ (filesToUpdate fs appDir assetsFiles clientFiles).1) := by
  refine ⟨rfl, ?_, ?_⟩
  · intro f _ herr hmem
    rw [filesToUpdate] at hmem
    have := (List.mem_filter.1 hmem).2
    simp [checkFile, herr] at this
  · intro g hmem hcond
    rw [filesToUpdate]
    apply List.mem_filter.2
    refine ⟨hmem, ?_⟩
    rcases hcond with habs | ⟨h, hdig, hne⟩
    · simp [checkFile, habs]
    · simp [checkFile, hdig, hne]

/-- Witness for C7: the entry with a hash error is skipped while the
other entry (absent locally) is still planned, and no error is
returned. -/
theorem filesToUpdate_error_skips_witness :
    (⟨"e".data, [], 0, [], "he".data, 0⟩ : File) ∉
      (filesToUpdate
        (fun p => if p = joinPath "ad".data "e".data
                  then LocalView.hashErr else LocalView.absent)
        "ad".data
        [⟨"e".data, [], 0, [], "he".data, 0⟩,
         ⟨"g".data, [], 0, [], "hg".data, 0⟩] []).1 ∧
    (⟨"g".data, [], 0, [], "hg".data, 0⟩ : File) ∈
      (filesToUpdate
        (fun p => if p = joinPath "ad".data "e".data
                  then LocalView.hashErr else LocalView.absent)
        "ad".data
        [⟨"e".data, [], 0, [], "he".data, 0⟩,
         ⟨"g".data, [], 0, [], "hg".data, 0⟩] []).1 := by
  have h := filesToUpdate_error_skips
    (fun p => if p = joinPath "ad".data "e".data
              then LocalView.hashErr else LocalView.absent)
    "ad".data
    [⟨"e".data, [], 0, [], "he".data, 0⟩,
     ⟨"g".data, [], 0, [], "hg".data, 0⟩] []
  exact ⟨h.2.1 ⟨"e".data, [], 0, [], "he".data, 0⟩ (by decide) (by decide),
         h.2.2 ⟨"g".data, [], 0, [], "hg".data, 0⟩ (by decide)
           (Or.inl (by decide))⟩

/-- C4: `DownloadPercent` returns `0` when the total byte counter is `0`;
for a positive total it returns `done / total * 100`, in particular `100`
when the done counter equals the total counter. -/
theorem DownloadPercent_spec (t d : Int) :
    (t = 0 → DownloadPercent t d = 0) ∧
    (0 < t → DownloadPercent t d = (d : ℚ) / (t : ℚ) * 100) ∧
    (0 < t → d = t → DownloadPercent t d = 100) := by
  refine ⟨fun h => by simp [DownloadPercent, h], fun ht => ?_, fun ht hd => ?_⟩
  · rw [DownloadPercent, if_neg (by omega)]
  · rw [DownloadPercent, if_neg (by omega), hd,
      div_self (by exact_mod_cast (by omega : t ≠ 0))]
    norm_num

/-- Witness for C4 at total `0` and at done `=` total `= 4`. -/
theorem DownloadPercent_spec_witness :
    DownloadPercent 0 5 = 0 ∧ DownloadPercent 4 4 = 100 :=
  ⟨(DownloadPercent_spec 0 5).1 rfl,
   (DownloadPercent_spec 4 4).2.2 (by norm_num) rfl⟩

/-- C10: `downloadZip` assigns the total byte counter directly from the
response's declared content length (so `-1` when the server declares no
length), and `DownloadPercent` is not clamped: a `-1` total with any
positive done counter yields a negative percentage, and a done counter
above a positive total yields a value above `100`. -/
theorem DownloadPercent_unclamped :
    (∀ (env : ZipEnv) (progress : Bool) (b0 f0 t0 : Int),
      env.mkdirFail = false → env.createFail = false → env.getFail = false →
      env.status = 200 →
      (downloadZip env progress b0 f0 t0).totalBytes = env.contentLength) ∧
    (∀ d : Int, 0 < d → DownloadPercent (-1) d < 0) ∧
    (∀ t d : Int, 0 < t → t < d → 100 < DownloadPercent t d) := by
  refine ⟨?_, ?_, ?_⟩
  · intro env progress b0 f0 t0 h1 h2 h3 h4
    by_cases hc : env.copyFail = true <;> by_cases hu : env.unzipFail = true <;>
      simp [downloadZip, h1, h2, h3, h4, hc, hu]
  · intro d hd
    rw [DownloadPercent, if_neg (by norm_num)]
    have hd' : (0 : ℚ) < (d : ℚ) := by exact_mod_cast hd
    have he : ((-1 : Int) : ℚ) = -1 := by norm_num
    rw [he]
    nlinarith [hd']
  · intro t d ht hd
    rw [DownloadPercent, if_neg (by omega)]
    have ht' : (0 : ℚ) < (t : ℚ) := by exact_mod_cast ht
    have hd' : (t : ℚ) < (d : ℚ) := by exact_mod_cast hd
    have h1 : (1 : ℚ) < (d : ℚ) / (t : ℚ) := (one_lt_div ht').mpr hd'
    nlinarith [h1]

/-- Witness for C10: a response without a declared length sets the total
counter to `-1`, making the percentage negative, and a done counter above
the total drives it above `100`. -/
theorem DownloadPercent_unclamped_witness :
    (downloadZip ⟨false, false, false, 200, -1, [7], false, false⟩
        true 0 0 0).totalBytes = -1 ∧
    DownloadPercent (-1) 7 < 0 ∧ 100 < DownloadPercent 2 5 :=
  ⟨DownloadPercent_unclamped.1 ⟨false, false, false, 200, -1, [7], false, false⟩
      true 0 0 0 rfl rfl rfl rfl,
   DownloadPercent_unclamped.2.1 7 (by norm_num),
   DownloadPercent_unclamped.2.2 2 5 (by norm_num) (by norm_num)⟩

/-- C5: with the remote version file and the local cached version file
both readable, `NeedsUpdate` returns `true` exactly when the two tokens
differ after trimming surrounding whitespace; and after `Update` saves
the remote token locally, `NeedsUpdate` against the same remote token
returns `false`. -/
theorem NeedsUpdate_spec (r l : Str) (init : Bool) (prev : LocalRead) :
    (NeedsUpdate ⟨.ok r, init, .content l⟩ = true ↔
      trimSpace l ≠ trimSpace r) ∧
    NeedsUpdate ⟨.ok r, init, updateSaveVersion (.ok r) prev⟩ = false := by
  constructor
  · simp [NeedsUpdate]
  · simp [NeedsUpdate, updateSaveVersion]

/-- C6 counterexample: the client manifest download fails (first
environment field `false`) while the stale local `client.json` still
parses, to a value different from the in-memory one; `refreshManifests`
then replaces the in-memory client manifest with the stale file's value
instead of leaving it at its previous value as the claim states. -/
theorem refreshManifests_stale_read_cex :
    (refreshManifests
        ⟨false, some ⟨0, "new".data, [], [], [], []⟩, true, some ⟨[], 0⟩⟩
        ⟨⟨0, "old".data, [], [], [], []⟩, ⟨[], 0⟩⟩).clientInfo
      ≠ ⟨0, "old".data, [], [], [], []⟩ := by
  decide

/-- C6 (amended): a failure to read or parse a local manifest file leaves
the corresponding in-memory manifest at its previous value, while a
successful read replaces it with the parsed value regardless of whether
the preceding download succeeded; each manifest's outcome is independent
of the other's failure and `refreshManifests` never aborts early. -/
theorem refreshManifests_amended (env : RefreshEnv) (st : ManifestState) :
    (env.clientRead = none →
      (refreshManifests env st).clientInfo = st.clientInfo) ∧
    (∀ v, env.clientRead = some v →
      (refreshManifests env st).clientInfo = v) ∧
    (env.assetsRead = none →
      (refreshManifests env st).assetsInfo = st.assetsInfo) ∧
    (∀ v, env.assetsRead = some v →
      (refreshManifests env st).assetsInfo = v) :=
  ⟨fun h => by simp [refreshManifests, h],
   fun v h => by simp [refreshManifests, h],
   fun h => by simp [refreshManifests, h],
   fun v h => by simp [refreshManifests, h]⟩

/-- Witness for the amended C6 theorem: failed client read keeps the
previous client manifest while the assets manifest is still loaded. -/
theorem refreshManifests_amended_witness :
    (refreshManifests ⟨false, none, true, some ⟨[], 3⟩⟩
        ⟨⟨1, "v".data, [], [], [], []⟩, ⟨[], 0⟩⟩).clientInfo
      = ⟨1, "v".data, [], [], [], []⟩ ∧
    (refreshManifests ⟨false, none, true, some ⟨[], 3⟩⟩
        ⟨⟨1, "v".data, [], [], [], []⟩, ⟨[], 0⟩⟩).assetsInfo = ⟨[], 3⟩ :=
  ⟨(refreshManifests_amended ⟨false, none, true, some ⟨[], 3⟩⟩
      ⟨⟨1, "v".data, [], [], [], []⟩, ⟨[], 0⟩⟩).1 rfl,
   (refreshManifests_amended ⟨false, none, true, some ⟨[], 3⟩⟩
      ⟨⟨1, "v".data, [], [], [], []⟩, ⟨[], 0⟩⟩).2.2.2 ⟨[], 3⟩ rfl⟩

/-- C8: in both `downloadFile` and `downloadZip`, a response whose status
is not 2xx (the code demands exactly 200 OK) makes the single-shot
transfer return the status error — there is no retry in either function —
and leaves the done-files counter untouched. -/
theorem non2xx_hard_failure (fe : FileEnv) (ze : ZipEnv) (progress : Bool)
    (b0 f0 t0 : Int)
    (hf1 : fe.mkdirFail = false) (hf2 : fe.createFail = false)
    (hf3 : fe.getFail = false)
    (hfs : ¬(200 ≤ fe.status ∧ fe.status ≤ 299))
    (hz1 : ze.mkdirFail = false) (hz2 : ze.createFail = false)
    (hz3 : ze.getFail = false)
    (hzs : ¬(200 ≤ ze.status ∧ ze.status ≤ 299)) :
    (downloadFile fe progress b0 f0).err
      = some (TransferErr.statusErr fe.status) ∧
    (downloadFile fe progress b0 f0).downloadedFiles = f0 ∧
    (downloadZip ze progress b0 f0 t0).err
      = some (TransferErr.statusErr ze.status) ∧
    (downloadZip ze progress b0 f0 t0).downloadedFiles = f0 := by
  have hne : fe.status ≠ 200 := by omega
  have hne2 : ze.status ≠ 200 := by omega
  simp [downloadFile, downloadZip, hf1, hf2, hf3, hz1, hz2, hz3, hne, hne2]

/-- Witness for C8 at status 404. -/
theorem non2xx_hard_failure_witness :
    (downloadFile ⟨"u".data, "d".data, false, false, false, 404, [3],
        false, false⟩ true 0 0).err = some (TransferErr.statusErr 404) ∧
    (downloadFile ⟨"u".data, "d".data, false, false, false, 404, [3],
        false, false⟩ true 0 0).downloadedFiles = 0 ∧
    (downloadZip ⟨false, false, false, 404, 9, [3], false, false⟩
        true 0 0 0).err = some (TransferErr.statusErr 404) ∧
    (downloadZip ⟨false, false, false, 404, 9, [3], false, false⟩
        true 0 0 0).downloadedFiles = 0 :=
  non2xx_hard_failure
    ⟨"u".data, "d".data, false, false, false, 404, [3], false, false⟩
    ⟨false, false, false, 404, 9, [3], false, false⟩
    true 0 0 0 rfl rfl rfl (by decide) rfl rfl rfl (by decide)

theorem sumChunks_foldl (chunks : List Nat) :
    ∀ st : Int,
      chunks.foldl (fun b n => (WriteProgress b n).2) st
        = st + sumChunks chunks := by
  induction chunks with
  | nil => intro st; simp [sumChunks]
  | cons n ns ih =>
    intro st
    rw [List.foldl_cons, ih]
    simp only [WriteProgress, sumChunks]
    ring

theorem teeBytes_eq (progress : Bool) (st : Int) (chunks : List Nat) :
    teeBytes progress st chunks = st + streamedBytes progress chunks := by
  cases progress with
  | false => simp [teeBytes, streamedBytes]
  | true => simp [teeBytes, streamedBytes, sumChunks_foldl]

theorem sumChunks_nonneg (chunks : List Nat) : 0 ≤ sumChunks chunks := by
  induction chunks with
  | nil => simp [sumChunks]
  | cons n ns ih =>
    simp only [sumChunks]
    omega

theorem streamedBytes_nonneg (progress : Bool) (chunks : List Nat) :
    0 ≤ streamedBytes progress chunks := by
  cases progress with
  | false => simp [streamedBytes]
  | true => simp [streamedBytes, sumChunks_nonneg]

/-- C9: whenever `downloadFile` or `downloadZip` returns an error — at
the request, status-check, lzma, copy or extraction stage — the
done-files counter is left unchanged, while the done-bytes counter keeps
exactly the bytes that streamed through the progress `Write` callback
before the failure (nothing when the failure precedes the body stream);
byte progress is never rolled back. -/
theorem failed_transfer_counters (fe : FileEnv) (ze : ZipEnv)
    (progress : Bool) (b0 f0 t0 : Int) :
    ((downloadFile fe progress b0 f0).err.isSome = true →
      (downloadFile fe progress b0 f0).downloadedFiles = f0 ∧
      (downloadFile fe progress b0 f0).downloadedBytes
        = b0 + (if preambleOK fe.mkdirFail fe.createFail fe.getFail fe.status
            then streamedBytes progress fe.chunks else 0) ∧
      b0 ≤ (downloadFile fe progress b0 f0).downloadedBytes) ∧
    ((downloadZip ze progress b0 f0 t0).err.isSome = true →
      (downloadZip ze progress b0 f0 t0).downloadedFiles = f0 ∧
      (downloadZip ze progress b0 f0 t0).downloadedBytes
        = b0 + (if preambleOK ze.mkdirFail ze.createFail ze.getFail ze.status
            then streamedBytes progress ze.chunks else 0) ∧
      b0 ≤ (downloadZip ze progress b0 f0 t0).downloadedBytes) := by
  constructor
  · intro herr
    by_cases h1 : fe.mkdirFail = true
    · simp [downloadFile, preambleOK, h1]
    · by_cases h2 : fe.createFail = true
      · simp [downloadFile, preambleOK, h1, h2]
      · by_cases h3 : fe.getFail = true
        · simp [downloadFile, preambleOK, h1, h2, h3]
        · by_cases h4 : fe.status = 200
          · by_cases h5 : (extPath fe.dstPath ≠ ".lzma".data ∧
                extPath fe.url = ".lzma".data ∧ fe.lzmaFail = true)
            · simp [downloadFile, preambleOK, h1, h2, h3, h4, h5, teeBytes_eq]
              linarith [streamedBytes_nonneg progress fe.chunks]
            · by_cases h6 : fe.copyFail = true
              · simp [downloadFile, preambleOK, h1, h2, h3, h4, h5, h6,
                  teeBytes_eq]
                linarith [streamedBytes_nonneg progress fe.chunks]
              · simp [downloadFile, h1, h2, h3, h4, h5, h6] at herr
          · simp [downloadFile, preambleOK, h1, h2, h3, h4]
  · intro herr
    by_cases h1 : ze.mkdirFail = true
    · simp [downloadZip, preambleOK, h1]
    · by_cases h2 : ze.createFail = true
      · simp [downloadZip, preambleOK, h1, h2]
      · by_cases h3 : ze.getFail = true
        · simp [downloadZip, preambleOK, h1, h2, h3]
        · by_cases h4 : ze.status = 200
          · by_cases h5 : ze.copyFail = true
            · simp [downloadZip, preambleOK, h1, h2, h3, h4, h5, teeBytes_eq]
              linarith [streamedBytes_nonneg progress ze.chunks]
            · by_cases h6 : ze.unzipFail = true
              · simp [downloadZip, preambleOK, h1, h2, h3, h4, h5, h6,
                  teeBytes_eq]
                linarith [streamedBytes_nonneg progress ze.chunks]
              · simp [downloadZip, h1, h2, h3, h4, h5, h6] at herr
          · simp [downloadZip, preambleOK, h1, h2, h3, h4]

/-- Witness for C9: transfers failing at the copy (file) and extraction
(zip) stages keep the done-files counter and never roll the done-bytes
counter back below its starting value. -/
theorem failed_transfer_counters_witness :
    (downloadFile ⟨"u".data, "d".data, false, false, false, 200, [3, 4],
        false, true⟩ true 5 7).downloadedFiles = 7 ∧
    5 ≤ (downloadFile ⟨"u".data, "d".data, false, false, false, 200, [3, 4],
        false, true⟩ true 5 7).downloadedBytes ∧
    (downloadZip ⟨false, false, false, 200, 9, [3, 4], false, true⟩
        true 5 7 0).downloadedFiles = 7 ∧
    5 ≤ (downloadZip ⟨false, false, false, 200, 9, [3, 4], false, true⟩
        true 5 7 0).downloadedBytes := by
  have h := (failed_transfer_counters
    ⟨"u".data, "d".data, false, false, false, 200, [3, 4], false, true⟩
    ⟨false, false, false, 200, 9, [3, 4], false, true⟩
    true 5 7 0)
  exact ⟨(h.1 (by decide)).1, (h.1 (by decide)).2.2,
         (h.2 (by decide)).1, (h.2 (by decide)).2.2⟩

end LauncherConfig
